import Mathlib

set_option autoImplicit false

/-
  Verification of the hydrate / transform layer of the steampipe-plugin-aws tables
  (aws_iam_user, aws_s3_bucket, aws_cloudtrail_trail_event).

  The Go source is shallowly embedded: every provider call (AWS SDK) is a field of an
  explicit provider record, so a hydrate function becomes a pure Lean function of the
  provider and of the plugin.HydrateData it receives.  A Go function that returns the
  pair (interface{}, error) is modelled by GoRet: a normal return carries an optional
  value and an optional error, and a runtime panic (failed type assertion or nil
  pointer dereference) is a separate constructor.
-/

namespace SteampipeAws

/-- An AWS service error as seen through awserr.Error: Code() plus a message. -/
structure AwsErr where
  code : String
  message : String
deriving DecidableEq, Repr

/-- The outcome of a Go function returning (interface{}, error): either a normal
return carrying (value, err) - either of which may be nil - or a runtime panic. -/
inductive GoRet (α : Type) where
  | ret (value : Option α) (err : Option AwsErr)
  | crash (msg : String)
deriving DecidableEq, Repr

/-- Whether a GoRet is a runtime panic. -/
def GoRet.isCrash {α : Type} : GoRet α → Bool
  | .crash _ => true
  | .ret _ _ => false

/-! ## S3 bucket table: data model -/

/-- s3.Bucket, the row item of the aws_s3_bucket table (only the Name field is read). -/
structure S3Bucket where
  name : String
deriving DecidableEq, Repr

/-- s3.GetBucketLocationOutput; LocationConstraint is a *string, hence optional. -/
structure GetBucketLocationOutput where
  locationConstraint : Option String
deriving DecidableEq, Repr

/-- s3.GetBucketPolicyStatusOutput (PolicyStatus.IsPublic, possibly absent). -/
structure GetBucketPolicyStatusOutput where
  policyStatusIsPublic : Option Bool
deriving DecidableEq, Repr

/-- s3.GetBucketVersioningOutput (Status and MFADelete are *string). -/
structure GetBucketVersioningOutput where
  status : Option String
  mfaDelete : Option String
deriving DecidableEq, Repr

/-- s3.GetBucketNotificationConfigurationRequest result; the payload is passed
through unchanged by the hydrate function, so its contents are left opaque. -/
structure NotificationConfiguration where
  payload : String
deriving DecidableEq, Repr

/-- s3.GetBucketLifecycleConfigurationOutput; passed through unchanged. -/
structure LifecycleConfiguration where
  payload : String
deriving DecidableEq, Repr

/-- s3.GetBucketEncryptionOutput; passed through unchanged. -/
structure GetBucketEncryptionOutput where
  payload : String
deriving DecidableEq, Repr

/-- s3.GetObjectLockConfigurationOutput; passed through unchanged. -/
structure GetObjectLockConfigurationOutput where
  payload : String
deriving DecidableEq, Repr

/-- s3.PublicAccessBlockConfiguration (four *bool fields). -/
structure PublicAccessBlockConfiguration where
  blockPublicAcls : Option Bool
  blockPublicPolicy : Option Bool
  ignorePublicAcls : Option Bool
  restrictPublicBuckets : Option Bool
deriving DecidableEq, Repr

/-- s3.GetPublicAccessBlockOutput wraps the configuration. -/
structure GetPublicAccessBlockOutput where
  publicAccessBlockConfiguration : Option PublicAccessBlockConfiguration
deriving DecidableEq, Repr

/-- s3.Tag: Key and Value are *string. -/
structure S3Tag where
  key : Option String
  val : Option String
deriving DecidableEq, Repr

/-- s3.GetBucketTaggingOutput (TagSet is a slice, nil when absent). -/
structure GetBucketTaggingOutput where
  tagSet : Option (List S3Tag)
deriving DecidableEq, Repr

/-- The AWS SDK collaborators used by the aws_s3_bucket hydrate functions, one field
per API call.  S3Service is session construction for a given region.  GetBucketTagging
is modelled as always yielding an output struct alongside an optional error, because
aws-sdk-go returns a non-nil allocated output even on failure and the call site of
getBucketTagging discards the error. -/
structure S3Provider where
  defaultRegion : String
  s3Service : String → Except AwsErr Unit
  getBucketLocationCall : String → Except AwsErr (Option GetBucketLocationOutput)
  getBucketPolicyStatus : String → Except AwsErr GetBucketPolicyStatusOutput
  getBucketVersioningCall : String → Except AwsErr GetBucketVersioningOutput
  getBucketNotificationConfiguration : String → Except AwsErr NotificationConfiguration
  getBucketLifecycleConfiguration : String → Except AwsErr LifecycleConfiguration
  getBucketEncryptionCall : String → Except AwsErr GetBucketEncryptionOutput
  getObjectLockConfigurationCall : String → Except AwsErr GetObjectLockConfigurationOutput
  getPublicAccessBlock : String → Except AwsErr GetPublicAccessBlockOutput
  getBucketTaggingCall : String → GetBucketTaggingOutput × Option AwsErr

/-- The h *plugin.HydrateData passed to a dependent S3 hydrate function: the row item
and the cached result of the getBucketLocation dependency
(h.HydrateResults["getBucketLocation"], nil when that fetch produced no result). -/
structure S3HydrateData where
  item : S3Bucket
  getBucketLocationResult : Option GetBucketLocationOutput
deriving DecidableEq, Repr

/-- The outcome of one hydrate invocation, instrumented with whether the function
reached its own provider data call (fetchAttempted = false means it returned - or
panicked - before issuing its own fetch). -/
structure HydrateOutcome (α : Type) where
  result : GoRet α
  fetchAttempted : Bool
deriving DecidableEq, Repr

/-! ## S3 bucket table: hydrate functions -/

/-- getBucketLocation: fetches the bucket location in the default region and
normalizes it - "EU" becomes "eu-west-1", and a nil output or nil LocationConstraint
becomes "us-east-1". -/
def getBucketLocation (p : S3Provider) (h : S3HydrateData) : GoRet GetBucketLocationOutput :=
  match p.s3Service p.defaultRegion with
  | .error e => .ret none (some e)
  | .ok _ =>
    match p.getBucketLocationCall h.item.name with
    | .error e => .ret none (some e)
    | .ok location =>
      match location with
      | some loc =>
        match loc.locationConstraint with
        | some c =>
          if c = "EU" then .ret (some { locationConstraint := some "eu-west-1" }) none
          else .ret (some loc) none
        | none => .ret (some { locationConstraint := some "us-east-1" }) none
      | none => .ret (some { locationConstraint := some "us-east-1" }) none

/-- getBucketIsPublic: returns (nil, nil) without fetching when the
getBucketLocation result is nil; otherwise dereferences LocationConstraint (panic on
nil), builds a session for that region and calls GetBucketPolicyStatus, mapping a
NoSuchBucketPolicy error to an empty output. -/
def getBucketIsPublic (p : S3Provider) (h : S3HydrateData) :
    HydrateOutcome GetBucketPolicyStatusOutput :=
  match h.getBucketLocationResult with
  | none => { result := .ret none none, fetchAttempted := false }
  | some location =>
    match location.locationConstraint with
    | none => { result := .crash "nil pointer dereference", fetchAttempted := false }
    | some region =>
      match p.s3Service region with
      | .error e => { result := .ret none (some e), fetchAttempted := false }
      | .ok _ =>
        match p.getBucketPolicyStatus h.item.name with
        | .error e =>
          if e.code = "NoSuchBucketPolicy" then
            { result := .ret (some { policyStatusIsPublic := none }) none, fetchAttempted := true }
          else
            { result := .ret none (some e), fetchAttempted := true }
        | .ok policyStatus => { result := .ret (some policyStatus) none, fetchAttempted := true }

/-- getBucketVersioning: returns (nil, nil) without fetching when the
getBucketLocation result is nil; otherwise calls GetBucketVersioning in the bucket
region and propagates any error. -/
def getBucketVersioning (p : S3Provider) (h : S3HydrateData) :
    HydrateOutcome GetBucketVersioningOutput :=
  match h.getBucketLocationResult with
  | none => { result := .ret none none, fetchAttempted := false }
  | some location =>
    match location.locationConstraint with
    | none => { result := .crash "nil pointer dereference", fetchAttempted := false }
    | some region =>
      match p.s3Service region with
      | .error e => { result := .ret none (some e), fetchAttempted := false }
      | .ok _ =>
        match p.getBucketVersioningCall h.item.name with
        | .error e => { result := .ret none (some e), fetchAttempted := true }
        | .ok versioning => { result := .ret (some versioning) none, fetchAttempted := true }

/-- getS3BucketEventNotificationConfigurations: returns (nil, nil) without fetching
when the getBucketLocation result is nil; otherwise calls
GetBucketNotificationConfiguration in the bucket region and propagates any error. -/
def getS3BucketEventNotificationConfigurations (p : S3Provider) (h : S3HydrateData) :
    HydrateOutcome NotificationConfiguration :=
  match h.getBucketLocationResult with
  | none => { result := .ret none none, fetchAttempted := false }
  | some location =>
    match location.locationConstraint with
    | none => { result := .crash "nil pointer dereference", fetchAttempted := false }
    | some region =>
      match p.s3Service region with
      | .error e => { result := .ret none (some e), fetchAttempted := false }
      | .ok _ =>
        match p.getBucketNotificationConfiguration h.item.name with
        | .error e => { result := .ret none (some e), fetchAttempted := true }
        | .ok details => { result := .ret (some details) none, fetchAttempted := true }

/-- getBucketLifecycle: returns (nil, nil) without fetching when the
getBucketLocation result is nil; otherwise calls GetBucketLifecycleConfiguration,
mapping a NoSuchLifecycleConfiguration error to (nil, nil). -/
def getBucketLifecycle (p : S3Provider) (h : S3HydrateData) :
    HydrateOutcome LifecycleConfiguration :=
  match h.getBucketLocationResult with
  | none => { result := .ret none none, fetchAttempted := false }
  | some location =>
    match location.locationConstraint with
    | none => { result := .crash "nil pointer dereference", fetchAttempted := false }
    | some region =>
      match p.s3Service region with
      | .error e => { result := .ret none (some e), fetchAttempted := false }
      | .ok _ =>
        match p.getBucketLifecycleConfiguration h.item.name with
        | .error e =>
          if e.code = "NoSuchLifecycleConfiguration" then
            { result := .ret none none, fetchAttempted := true }
          else
            { result := .ret none (some e), fetchAttempted := true }
        | .ok lifecycle => { result := .ret (some lifecycle) none, fetchAttempted := true }

/-- getBucketEncryption: returns (nil, nil) without fetching when the
getBucketLocation result is nil; otherwise calls GetBucketEncryption, mapping a
ServerSideEncryptionConfigurationNotFoundError error to (nil, nil). -/
def getBucketEncryption (p : S3Provider) (h : S3HydrateData) :
    HydrateOutcome GetBucketEncryptionOutput :=
  match h.getBucketLocationResult with
  | none => { result := .ret none none, fetchAttempted := false }
  | some location =>
    match location.locationConstraint with
    | none => { result := .crash "nil pointer dereference", fetchAttempted := false }
    | some region =>
      match p.s3Service region with
      | .error e => { result := .ret none (some e), fetchAttempted := false }
      | .ok _ =>
        match p.getBucketEncryptionCall h.item.name with
        | .error e =>
          if e.code = "ServerSideEncryptionConfigurationNotFoundError" then
            { result := .ret none none, fetchAttempted := true }
          else
            { result := .ret none (some e), fetchAttempted := true }
        | .ok encryption => { result := .ret (some encryption) none, fetchAttempted := true }

/-- getObjectLockConfiguration: returns (nil, nil) without fetching when the
getBucketLocation result is nil; otherwise calls GetObjectLockConfiguration, mapping
an ObjectLockConfigurationNotFoundError error to (nil, nil). -/
def getObjectLockConfiguration (p : S3Provider) (h : S3HydrateData) :
    HydrateOutcome GetObjectLockConfigurationOutput :=
  match h.getBucketLocationResult with
  | none => { result := .ret none none, fetchAttempted := false }
  | some location =>
    match location.locationConstraint with
    | none => { result := .crash "nil pointer dereference", fetchAttempted := false }
    | some region =>
      match p.s3Service region with
      | .error e => { result := .ret none (some e), fetchAttempted := false }
      | .ok _ =>
        match p.getObjectLockConfigurationCall h.item.name with
        | .error e =>
          if e.code = "ObjectLockConfigurationNotFoundError" then
            { result := .ret none none, fetchAttempted := true }
          else
            { result := .ret none (some e), fetchAttempted := true }
        | .ok data => { result := .ret (some data) none, fetchAttempted := true }

/-- The default PublicAccessBlockConfiguration built by getBucketPublicAccessBlock:
all four flags set to false. -/
def defaultAccessBlock : PublicAccessBlockConfiguration :=
  { blockPublicAcls := some false
    blockPublicPolicy := some false
    ignorePublicAcls := some false
    restrictPublicBuckets := some false }

/-- getBucketPublicAccessBlock: returns (nil, nil) without fetching when the
getBucketLocation result is nil; otherwise calls GetPublicAccessBlock, mapping a
NoSuchPublicAccessBlockConfiguration error to the non-nil defaultAccessBlock and
otherwise returning the configuration field of the output. -/
def getBucketPublicAccessBlock (p : S3Provider) (h : S3HydrateData) :
    HydrateOutcome PublicAccessBlockConfiguration :=
  match h.getBucketLocationResult with
  | none => { result := .ret none none, fetchAttempted := false }
  | some location =>
    match location.locationConstraint with
    | none => { result := .crash "nil pointer dereference", fetchAttempted := false }
    | some region =>
      match p.s3Service region with
      | .error e => { result := .ret none (some e), fetchAttempted := false }
      | .ok _ =>
        match p.getPublicAccessBlock h.item.name with
        | .error e =>
          if e.code = "NoSuchPublicAccessBlockConfiguration" then
            { result := .ret (some defaultAccessBlock) none, fetchAttempted := true }
          else
            { result := .ret none (some e), fetchAttempted := true }
        | .ok accessBlock =>
          { result := .ret accessBlock.publicAccessBlockConfiguration none, fetchAttempted := true }

/-- getBucketTagging: returns (nil, nil) without fetching when the getBucketLocation
result is nil; otherwise calls GetBucketTagging but discards the error of the call
(bucketTags, _ := svc.GetBucketTagging(params)) - the subsequent err check re-tests
the stale, necessarily nil session error, so the output is returned with no error
even when the provider call failed. -/
def getBucketTagging (p : S3Provider) (h : S3HydrateData) :
    HydrateOutcome GetBucketTaggingOutput :=
  match h.getBucketLocationResult with
  | none => { result := .ret none none, fetchAttempted := false }
  | some location =>
    match location.locationConstraint with
    | none => { result := .crash "nil pointer dereference", fetchAttempted := false }
    | some region =>
      match p.s3Service region with
      | .error e => { result := .ret none (some e), fetchAttempted := false }
      | .ok _ =>
        let bucketTags := (p.getBucketTaggingCall h.item.name).fst
        { result := .ret (some bucketTags) none, fetchAttempted := true }

/-! ## IAM user table: data model -/

/-- iam.Tag: Key and Value are *string. -/
structure IamTag where
  key : Option String
  value : Option String
deriving DecidableEq, Repr

/-- iam.AttachedPermissionsBoundary (both fields are *string). -/
structure PermissionsBoundary where
  permissionsBoundaryArn : Option String
  permissionsBoundaryType : Option String
deriving DecidableEq, Repr

/-- iam.User as returned inside GetUserOutput (the fields getAwsIamUserData reads). -/
structure IamUserDetail where
  tags : Option (List IamTag)
  permissionsBoundary : Option PermissionsBoundary
deriving DecidableEq, Repr

/-- iam.GetUserOutput (User may be nil). -/
structure GetUserOutput where
  user : Option IamUserDetail
deriving DecidableEq, Repr

/-- iam.User as the row item (only UserName is read by the hydrate functions). -/
structure IamUser where
  userName : String
deriving DecidableEq, Repr

/-- iam.LoginProfile; passed through unchanged. -/
structure LoginProfile where
  payload : String
deriving DecidableEq, Repr

/-- iam.ListGroupsForUserOutput; passed through unchanged. -/
structure ListGroupsForUserOutput where
  payload : String
deriving DecidableEq, Repr

/-- iam.MFADevice; passed through unchanged. -/
structure MFADevice where
  serialNumber : String
deriving DecidableEq, Repr

/-- iam.ListMFADevicesOutput (MFADevices is a slice, nil when absent). -/
structure ListMFADevicesOutput where
  mfaDevices : Option (List MFADevice)
deriving DecidableEq, Repr

/-- iam.AttachedPolicy (PolicyArn is *string). -/
structure AttachedPolicy where
  policyArn : Option String
deriving DecidableEq, Repr

/-- iam.ListAttachedUserPoliciesOutput (AttachedPolicies is a slice). -/
structure ListAttachedUserPoliciesOutput where
  attachedPolicies : Option (List AttachedPolicy)
deriving DecidableEq, Repr

/-- iam.GetUserPolicyOutput (PolicyDocument and PolicyName are *string). -/
structure GetUserPolicyOutput where
  policyDocument : Option String
  policyName : Option String
deriving DecidableEq, Repr

/-- An already-parsed JSON policy document (the result of json.Unmarshal); its
structure is irrelevant to the claims, only its identity is tracked. -/
structure RawPolicy where
  json : String
deriving DecidableEq, Repr

/-- The map[string]interface{} built by getUserInlinePolicy for one inline policy:
either still the empty map made at the top of the function, or the populated
{PolicyDocument, PolicyName} entry. -/
inductive InlinePolicyEntry where
  | emptyMap
  | entry (policyDocument : RawPolicy) (policyName : String)
deriving DecidableEq, Repr

/-- The map getAwsIamUserData assembles for the row. Tags is a Go map (nil until the
user has tags); it is modelled as the key/value list in iteration order. -/
structure UserDataMap where
  tagsSrc : Option (List IamTag)
  tags : Option (List (String × String))
  permissionsBoundaryArn : String
  permissionsBoundaryType : String
deriving DecidableEq, Repr

/-- The AWS SDK collaborators used by the aws_iam_user hydrate functions.  The four
calls whose errors are discarded at their call sites (userData, _ := svc.X(params))
are modelled as always yielding an output struct alongside an optional error, which
is what aws-sdk-go does: the output is a non-nil allocated struct even on failure.
The calls whose errors the code does inspect use Except.  The GetUserPolicy output may
be nil, so it is optional. -/
structure IamProvider where
  iamService : Except AwsErr Unit
  getUserCall : String → GetUserOutput × Option AwsErr
  getLoginProfile : String → Except AwsErr LoginProfile
  listGroupsForUser : String → ListGroupsForUserOutput × Option AwsErr
  listMFADevices : String → ListMFADevicesOutput × Option AwsErr
  listAttachedUserPolicies : String → ListAttachedUserPoliciesOutput × Option AwsErr
  listUserPolicies : String → Except AwsErr (List String)
  getUserPolicyCall : String → String → Except AwsErr (Option GetUserPolicyOutput)
  queryUnescape : String → Except AwsErr String
  jsonUnmarshal : String → Except AwsErr RawPolicy

/-! ## IAM user table: hydrate functions -/

/-- getAwsIamUserLoginProfile: calls GetLoginProfile; a NoSuchEntity error is
converted to (nil, nil), any other error is returned. -/
def getAwsIamUserLoginProfile (p : IamProvider) (user : IamUser) : GoRet LoginProfile :=
  match p.iamService with
  | .error e => .ret none (some e)
  | .ok _ =>
    match p.getLoginProfile user.userName with
    | .error e =>
      if e.code = "NoSuchEntity" then .ret none none
      else .ret none (some e)
    | .ok op => .ret (some op) none

/-- The turbotTags map built by getAwsIamUserData: one (key, value) pair per tag,
dereferencing *t.Key and *t.Value (panic when either pointer is nil). -/
def iamTagsToPairs : List IamTag → Except String (List (String × String))
  | [] => .ok []
  | t :: rest =>
    match t.key, t.value with
    | some k, some v =>
      match iamTagsToPairs rest with
      | .error m => .error m
      | .ok pairs => .ok ((k, v) :: pairs)
    | _, _ => .error "nil pointer dereference"

/-- getAwsIamUserData: after session creation succeeds, calls GetUser but discards
the error of the call (userData, _ := svc.GetUser(params)); the following err check
re-tests the stale, necessarily nil session error, so the function proceeds to
assemble its map from whatever output it got and returns it with no error even when
the provider call failed.  Dereferencing *v.PermissionsBoundaryType is guarded only
by PermissionsBoundaryArn being non-nil, so a nil type pointer panics. -/
def getAwsIamUserData (p : IamProvider) (user : IamUser) : GoRet UserDataMap :=
  match p.iamService with
  | .error e => .ret none (some e)
  | .ok _ =>
    let userData := (p.getUserCall user.userName).fst
    match userData.user with
    | none =>
      .ret (some { tagsSrc := none, tags := none
                   permissionsBoundaryArn := "", permissionsBoundaryType := "" }) none
    | some u =>
      let tagPart : Except String (Option (List IamTag) × Option (List (String × String))) :=
        match u.tags with
        | none => .ok (none, none)
        | some ts =>
          match iamTagsToPairs ts with
          | .error m => .error m
          | .ok pairs => .ok (some ts, some pairs)
      match tagPart with
      | .error m => .crash m
      | .ok (tagsSrc, turbotTags) =>
        match u.permissionsBoundary with
        | some v =>
          match v.permissionsBoundaryArn with
          | some arn =>
            match v.permissionsBoundaryType with
            | some ty =>
              .ret (some { tagsSrc := tagsSrc, tags := turbotTags
                           permissionsBoundaryArn := arn, permissionsBoundaryType := ty }) none
            | none => .crash "nil pointer dereference"
          | none =>
            .ret (some { tagsSrc := tagsSrc, tags := turbotTags
                         permissionsBoundaryArn := "", permissionsBoundaryType := "" }) none
        | none =>
          .ret (some { tagsSrc := tagsSrc, tags := turbotTags
                       permissionsBoundaryArn := "", permissionsBoundaryType := "" }) none

/-- The attachedPolicyArns slice built by getAwsIamUserAttachedPolicies, dereferencing
each *policy.PolicyArn (panic when nil). -/
def attachedPolicyArns : List AttachedPolicy → Except String (List String)
  | [] => .ok []
  | policy :: rest =>
    match policy.policyArn with
    | some arn =>
      match attachedPolicyArns rest with
      | .error m => .error m
      | .ok arns => .ok (arn :: arns)
    | none => .error "nil pointer dereference"

/-- getAwsIamUserAttachedPolicies: calls ListAttachedUserPolicies but discards the
the error of the call (userData, _ := ...); the stale err check cannot fire, so the arn list
is built from whatever output came back and returned with no error. -/
def getAwsIamUserAttachedPolicies (p : IamProvider) (user : IamUser) : GoRet (List String) :=
  match p.iamService with
  | .error e => .ret none (some e)
  | .ok _ =>
    let userData := (p.listAttachedUserPolicies user.userName).fst
    match userData.attachedPolicies with
    | none => .ret none none
    | some policies =>
      match attachedPolicyArns policies with
      | .error m => .crash m
      | .ok arns => .ret (some arns) none

/-- getAwsIamUserGroups: calls ListGroupsForUser but discards the error of the call
(userData, _ := ...); the stale err check cannot fire, so the output is returned
with no error even when the provider call failed. -/
def getAwsIamUserGroups (p : IamProvider) (user : IamUser) : GoRet ListGroupsForUserOutput :=
  match p.iamService with
  | .error e => .ret none (some e)
  | .ok _ =>
    let userData := (p.listGroupsForUser user.userName).fst
    .ret (some userData) none

/-- getAwsIamUserMfaDevices: calls ListMFADevices but discards the error of the call
(userData, _ := ...); the stale err check cannot fire, so the output is returned
with no error even when the provider call failed. -/
def getAwsIamUserMfaDevices (p : IamProvider) (user : IamUser) : GoRet ListMFADevicesOutput :=
  match p.iamService with
  | .error e => .ret none (some e)
  | .ok _ =>
    let userData := (p.listMFADevices user.userName).fst
    .ret (some userData) none

/-! ## IAM user table: inline-policy fan-out / fan-in -/

/-- getUserInlinePolicy: fetches one inline policy.  On provider error the error is
returned; a non-nil output with a non-nil PolicyDocument is URL-unescaped and
JSON-decoded (either failure is returned as the error), dereferencing
*tmpPolicy.PolicyName (panic when nil); otherwise the still-empty map is returned. -/
def getUserInlinePolicy (p : IamProvider) (policyName userName : String) :
    GoRet InlinePolicyEntry :=
  match p.getUserPolicyCall policyName userName with
  | .error e => .ret none (some e)
  | .ok tmpPolicy =>
    match tmpPolicy with
    | none => .ret (some .emptyMap) none
    | some tp =>
      match tp.policyDocument with
      | none => .ret (some .emptyMap) none
      | some doc =>
        match p.queryUnescape doc with
        | .error decodeErr => .ret none (some decodeErr)
        | .ok decoded =>
          match p.jsonUnmarshal decoded with
          | .error e => .ret none (some e)
          | .ok rawPolicy =>
            match tp.policyName with
            | none => .crash "nil pointer dereference"
            | some name => .ret (some (.entry rawPolicy name)) none

/-- A buffered Go channel with no concurrent receiver: capacity and current buffer
contents in send order. -/
structure Chan (α : Type) where
  capty : Nat
  buf : List α
deriving DecidableEq, Repr

/-- Sending on a buffered channel: succeeds exactly when the buffer is not full;
with no receiver running, a send on a full buffer blocks forever (none). -/
def Chan.send {α : Type} (c : Chan α) (a : α) : Option (Chan α) :=
  if c.buf.length < c.capty then some { c with buf := c.buf ++ [a] } else none

/-- getUserPolicyDataAsync: the body of one fan-out goroutine, as a function of the
getUserInlinePolicy result it observes.  It sends the error on errorCh when err is
non-nil, otherwise sends rowData on policyCh when rowData is non-nil, otherwise
sends nothing; the result records (message for errorCh, message for policyCh).
A panic inside the goroutine kills the process (none). -/
def getUserPolicyDataAsync (r : GoRet InlinePolicyEntry) :
    Option (Option AwsErr × Option InlinePolicyEntry) :=
  match r with
  | .crash _ => none
  | .ret _ (some e) => some (some e, none)
  | .ret (some v) none => some (none, some v)
  | .ret none none => some (none, none)

/-- Runs the fan-out goroutines of listAwsIamUserInlinePolicies in their completion
order, performing the channel send of each against the shared buffered channels.
none means the run never reaches wg.Wait: a goroutine panicked or blocked on a full
channel. -/
def runPolicyTasks (fetch : String → GoRet InlinePolicyEntry) :
    List String → Chan AwsErr → Chan InlinePolicyEntry →
    Option (Chan AwsErr × Chan InlinePolicyEntry)
  | [], errorCh, policyCh => some (errorCh, policyCh)
  | policy :: rest, errorCh, policyCh =>
    match getUserPolicyDataAsync (fetch policy) with
    | none => none
    | some (some e, _) =>
      match errorCh.send e with
      | none => none
      | some ec => runPolicyTasks fetch rest ec policyCh
    | some (none, some v) =>
      match policyCh.send v with
      | none => none
      | some pc => runPolicyTasks fetch rest errorCh pc
    | some (none, none) => runPolicyTasks fetch rest errorCh policyCh

/-- listAwsIamUserInlinePolicies: lists the inline policy names of the user, launches one
goroutine per name (each running getUserInlinePolicy for that name), waits on the
WaitGroup barrier, closes both channels - each made with capacity equal to the
number of policy names - then drains errorCh first, returning the first error with a
nil aggregate if there is one, and otherwise aggregates policyCh into the result
list.  completionOrder is the nondeterministic order in which the goroutines reach
their sends, a permutation of the policy names; the outer Option is none when the
process never returns (a goroutine panicked or a send blocked). -/
def listAwsIamUserInlinePolicies (p : IamProvider) (user : IamUser)
    (completionOrder : List String) : Option (GoRet (List InlinePolicyEntry)) :=
  match p.iamService with
  | .error e => some (.ret none (some e))
  | .ok _ =>
    match p.listUserPolicies user.userName with
    | .error e => some (.ret none (some e))
    | .ok policyNames =>
      let n := policyNames.length
      match runPolicyTasks (fun policy => getUserInlinePolicy p policy user.userName)
          completionOrder { capty := n, buf := [] } { capty := n, buf := [] } with
      | none => none
      | some (errorCh, policyCh) =>
        match errorCh.buf with
        | e :: _ => some (.ret none (some e))
        | [] => some (.ret (some policyCh.buf) none)

/-- The synchronization events of listAwsIamUserInlinePolicies in program order. -/
inductive FanInEvent where
  | taskComplete (policy : String)
  | waitReturns
  | closeChannels
  | readErrorCh
  | readPolicyCh
deriving DecidableEq, Repr

/-- The event order of one run of listAwsIamUserInlinePolicies: every goroutine
completes (wg.Done) before wg.Wait returns, the channels are closed next, and only
then are the error and policy channels drained. -/
def fanInTrace (completionOrder : List String) : List FanInEvent :=
  completionOrder.map FanInEvent.taskComplete ++
    [FanInEvent.waitReturns, FanInEvent.closeChannels,
     FanInEvent.readErrorCh, FanInEvent.readPolicyCh]

/-! ## IAM / S3 transform functions -/

/-- userMfaStatus: asserts d.HydrateItem to *iam.ListMFADevicesOutput - a nil
hydrate item makes the type assertion (or the field access on a nil pointer) panic -
then reports whether the MFADevices slice is non-nil and non-empty. -/
def userMfaStatus (hydrateItem : Option ListMFADevicesOutput) : GoRet Bool :=
  match hydrateItem with
  | none => .crash "interface conversion on nil HydrateItem"
  | some data =>
    match data.mfaDevices with
    | some devices => if devices.length > 0 then .ret (some true) none else .ret (some false) none
    | none => .ret (some false) none

/-- The turbotTagsMap built by s3TagsToTurbotTags: one (key, value) pair per tag,
dereferencing *i.Key and *i.Value (panic when either pointer is nil). -/
def s3TagPairs : List S3Tag → Except String (List (String × String))
  | [] => .ok []
  | i :: rest =>
    match i.key, i.val with
    | some k, some v =>
      match s3TagPairs rest with
      | .error m => .error m
      | .ok pairs => .ok ((k, v) :: pairs)
    | _, _ => .error "nil pointer dereference"

/-- s3TagsToTurbotTags: asserts d.Value to []*s3.Tag (a nil slice passes the
assertion), leaves the map nil when the slice is nil, and otherwise builds the
key/value map; the map (nil or not) is returned with no error. -/
def s3TagsToTurbotTags (tagSet : Option (List S3Tag)) : GoRet (List (String × String)) :=
  match tagSet with
  | none => .ret none none
  | some tags =>
    match s3TagPairs tags with
    | .error m => .crash m
    | .ok pairs => .ret (some pairs) none

/-- The transform.TransformData handed to userMfaStatus (the HydrateItem field). -/
structure MfaTransformData where
  hydrateItem : Option ListMFADevicesOutput
deriving DecidableEq, Repr

/-- The transform.TransformData handed to s3TagsToTurbotTags (the Value field). -/
structure TagsTransformData where
  value : Option (List S3Tag)
deriving DecidableEq, Repr

/-- userMfaStatus with the TransformData threaded through explicitly: the body only
reads d (no assignment through d exists in the source), so the state comes back
exactly as it went in. -/
def userMfaStatusSt (d : MfaTransformData) : GoRet Bool × MfaTransformData :=
  (userMfaStatus d.hydrateItem, d)

/-- s3TagsToTurbotTags with the TransformData threaded through explicitly: the body
only reads d and writes a freshly allocated map, so the state comes back exactly as
it went in. -/
def s3TagsToTurbotTagsSt (d : TagsTransformData) : GoRet (List (String × String)) × TagsTransformData :=
  (s3TagsToTurbotTags d.value, d)

/-! ## List functions: row emission and capacity polling -/

/-- cloudtrail.Event as streamed by listCloudtrailEvents. -/
structure CloudtrailEvent where
  eventId : String
deriving DecidableEq, Repr

/-- One observable interaction of a list function with the row sink: emitting a row
via d.StreamListItem, or polling d.QueryStatus.RowsRemaining and observing a value. -/
inductive SinkEvent (ρ : Type) where
  | emit (row : ρ)
  | pollRowsRemaining (remaining : Nat)
deriving DecidableEq, Repr

/-- Whether a sink event is a row emission. -/
def SinkEvent.isEmit {ρ : Type} : SinkEvent ρ → Bool
  | .emit _ => true
  | .pollRowsRemaining _ => false

/-- Whether a sink event is a RowsRemaining poll. -/
def SinkEvent.isPoll {ρ : Type} : SinkEvent ρ → Bool
  | .emit _ => false
  | .pollRowsRemaining _ => true

/-- The page callback of svc.ListUsersPages inside listIamUsers: for each user on
the page, stream the row and then poll RowsRemaining, aborting the whole pagination
(callback result false) when it reaches zero.  remaining k is the RowsRemaining
value observed after k rows have been streamed in this query; emitted counts the
rows streamed before this page.  Returns the sink events of the page, the updated
row count, and the continue flag of the callback. -/
def listIamUsersPage (remaining : Nat → Nat) :
    List IamUser → Nat → List (SinkEvent IamUser) × Nat × Bool
  | [], emitted => ([], emitted, true)
  | user :: rest, emitted =>
    let r := remaining (emitted + 1)
    if r = 0 then
      ([.emit user, .pollRowsRemaining r], emitted + 1, false)
    else
      let next := listIamUsersPage remaining rest (emitted + 1)
      (.emit user :: .pollRowsRemaining r :: next.fst, next.snd)

/-- The row emission of listIamUsers across the pages the SDK paginator supplies:
pages are processed in order while the page callback keeps returning true. -/
def listIamUsersEmits (remaining : Nat → Nat) :
    List (List IamUser) → Nat → List (SinkEvent IamUser)
  | [], _ => []
  | page :: rest, emitted =>
    let outcome := listIamUsersPage remaining page emitted
    if outcome.snd.snd then outcome.fst ++ listIamUsersEmits remaining rest outcome.snd.fst
    else outcome.fst

/-- The row emission loop of listS3Buckets: for each bucket of the single ListBuckets
result, stream the row and then poll RowsRemaining, returning early when it reaches
zero. -/
def listS3BucketsEmits (remaining : Nat → Nat) :
    List S3Bucket → Nat → List (SinkEvent S3Bucket)
  | [], _ => []
  | bucket :: rest, emitted =>
    let r := remaining (emitted + 1)
    if r = 0 then [.emit bucket, .pollRowsRemaining r]
    else .emit bucket :: .pollRowsRemaining r :: listS3BucketsEmits remaining rest (emitted + 1)

/-- The page callback of svc.LookupEventsPages inside listCloudtrailEvents: every
event of every page is streamed, the callback returns !isLast, and RowsRemaining is
never consulted. -/
def listCloudtrailEventsEmits : List (List CloudtrailEvent) → List (SinkEvent CloudtrailEvent)
  | [] => []
  | page :: rest => page.map SinkEvent.emit ++ listCloudtrailEventsEmits rest

/-- Holds when every emitted row in the trace is immediately followed by a
RowsRemaining poll - hence between any two consecutively emitted rows the remaining
capacity is polled. -/
def emitsFollowedByPoll {ρ : Type} : List (SinkEvent ρ) → Bool
  | [] => true
  | .emit _ :: rest =>
    match rest with
    | .pollRowsRemaining _ :: _ => emitsFollowedByPoll rest
    | _ => false
  | .pollRowsRemaining _ :: rest => emitsFollowedByPoll rest

/-- Holds when no row is emitted after a poll that observed zero remaining
capacity. -/
def noEmitAfterZeroPoll {ρ : Type} : List (SinkEvent ρ) → Bool
  | [] => true
  | .emit _ :: rest => noEmitAfterZeroPoll rest
  | .pollRowsRemaining r :: rest =>
    match r with
    | 0 => rest.all (fun ev => !ev.isEmit)
    | _ + 1 => noEmitAfterZeroPoll rest

/-! ## Observation helpers and concrete instances -/

/-- The message a fan-out goroutine sends on errorCh, as a function of the
getUserInlinePolicy result it observed (the err-non-nil branch of
getUserPolicyDataAsync). -/
def errSent (r : GoRet InlinePolicyEntry) : Option AwsErr :=
  match r with
  | .ret _ (some e) => some e
  | _ => none

/-- The message a fan-out goroutine sends on policyCh, as a function of the
getUserInlinePolicy result it observed (the err-nil, rowData-non-nil branch of
getUserPolicyDataAsync). -/
def polSent (r : GoRet InlinePolicyEntry) : Option InlinePolicyEntry :=
  match r with
  | .ret (some v) none => some v
  | _ => none

/-- A concrete S3 provider: sessions succeed, the bucket location reports "EU",
encryption / object lock / public access block fail with their respective
absence codes, and tagging fails with AccessDenied. -/
def s3Demo : S3Provider :=
  { defaultRegion := "us-east-1"
    s3Service := fun _ => .ok ()
    getBucketLocationCall := fun _ => .ok (some { locationConstraint := some "EU" })
    getBucketPolicyStatus := fun _ => .ok { policyStatusIsPublic := some false }
    getBucketVersioningCall := fun _ => .ok { status := some "Enabled", mfaDelete := none }
    getBucketNotificationConfiguration := fun _ => .ok { payload := "notif" }
    getBucketLifecycleConfiguration := fun _ => .ok { payload := "lifecycle" }
    getBucketEncryptionCall := fun _ =>
      .error { code := "ServerSideEncryptionConfigurationNotFoundError", message := "absent" }
    getObjectLockConfigurationCall := fun _ =>
      .error { code := "ObjectLockConfigurationNotFoundError", message := "absent" }
    getPublicAccessBlock := fun _ =>
      .error { code := "NoSuchPublicAccessBlockConfiguration", message := "absent" }
    getBucketTaggingCall := fun _ =>
      ({ tagSet := none }, some { code := "AccessDenied", message := "denied" }) }

/-- A concrete IAM provider whose GetUser, ListGroupsForUser, ListMFADevices and
ListAttachedUserPolicies calls all fail with AccessDenied (yielding the empty output
structs aws-sdk-go allocates alongside an error) and whose GetLoginProfile fails
with NoSuchEntity. -/
def iamFailingDemo : IamProvider :=
  { iamService := .ok ()
    getUserCall := fun _ => ({ user := none }, some { code := "AccessDenied", message := "denied" })
    getLoginProfile := fun _ => .error { code := "NoSuchEntity", message := "absent" }
    listGroupsForUser := fun _ =>
      ({ payload := "" }, some { code := "AccessDenied", message := "denied" })
    listMFADevices := fun _ =>
      ({ mfaDevices := none }, some { code := "AccessDenied", message := "denied" })
    listAttachedUserPolicies := fun _ =>
      ({ attachedPolicies := none }, some { code := "AccessDenied", message := "denied" })
    listUserPolicies := fun _ => .ok []
    getUserPolicyCall := fun _ _ => .error { code := "AccessDenied", message := "denied" }
    queryUnescape := fun s => .ok s
    jsonUnmarshal := fun s => .ok { json := s } }

/-- A concrete IAM provider with two inline policies of which exactly one
(policy "p1") fails to fetch. -/
def iamInlineDemo : IamProvider :=
  { iamService := .ok ()
    getUserCall := fun _ => ({ user := none }, none)
    getLoginProfile := fun _ => .error { code := "NoSuchEntity", message := "absent" }
    listGroupsForUser := fun _ => ({ payload := "" }, none)
    listMFADevices := fun _ => ({ mfaDevices := none }, none)
    listAttachedUserPolicies := fun _ => ({ attachedPolicies := none }, none)
    listUserPolicies := fun _ => .ok ["p1", "p2"]
    getUserPolicyCall := fun policy _ =>
      if policy = "p1" then .error { code := "AccessDenied", message := "denied" }
      else .ok (some { policyDocument := some "doc", policyName := some policy })
    queryUnescape := fun s => .ok s
    jsonUnmarshal := fun s => .ok { json := s } }

/-- A variant of iamInlineDemo in which every inline-policy fetch succeeds. -/
def iamInlineOkDemo : IamProvider :=
  { iamInlineDemo with
    getUserPolicyCall := fun policy _ =>
      .ok (some { policyDocument := some "doc", policyName := some policy }) }

/-! ## Theorems -/

/-- Claim C2, counterexample: for a row whose getBucketLocation dependency was
suppressed to a null result, getBucketIsPublic does NOT execute its own provider
fetch - it returns (null, null) with fetchAttempted = false, refuting the claim that
every dependent hydrate function still executes its own fetch. -/
theorem C2_counterexample :
    getBucketIsPublic s3Demo { item := { name := "bkt" }, getBucketLocationResult := none } =
      { result := .ret none none, fetchAttempted := false } :=
  rfl

/-- Claim C2, amended: for every row whose getBucketLocation dependency was
suppressed to a null result, each dependent hydrate function (getBucketIsPublic,
getBucketVersioning) receives the null upstream value and immediately returns
(null, null) without executing its own provider fetch. -/
theorem C2_dependent_short_circuits (p : S3Provider) (item : S3Bucket) :
    getBucketIsPublic p { item := item, getBucketLocationResult := none } =
      { result := .ret none none, fetchAttempted := false } ∧
    getBucketVersioning p { item := item, getBucketLocationResult := none } =
      { result := .ret none none, fetchAttempted := false } :=
  ⟨rfl, rfl⟩

/-- Claim C3: the claim says these hydrate functions return the error raised by
their provider call, but each call site discards that error (userData, _ := svc.X)
and re-tests a stale, necessarily nil err, so at a failing provider input each
function returns with NO error: getAwsIamUserData, getAwsIamUserGroups,
getAwsIamUserMfaDevices, getAwsIamUserAttachedPolicies and getBucketTagging all
swallow an AccessDenied provider failure. -/
theorem C3_provider_error_swallowed :
    getAwsIamUserData iamFailingDemo { userName := "alice" } =
      .ret (some { tagsSrc := none, tags := none
                   permissionsBoundaryArn := "", permissionsBoundaryType := "" }) none ∧
    getAwsIamUserGroups iamFailingDemo { userName := "alice" } =
      .ret (some { payload := "" }) none ∧
    getAwsIamUserMfaDevices iamFailingDemo { userName := "alice" } =
      .ret (some { mfaDevices := none }) none ∧
    getAwsIamUserAttachedPolicies iamFailingDemo { userName := "alice" } = .ret none none ∧
    getBucketTagging s3Demo
        { item := { name := "bkt" }
          getBucketLocationResult := some { locationConstraint := some "us-east-1" } } =
      { result := .ret (some { tagSet := none }) none, fetchAttempted := true } :=
  ⟨rfl, rfl, rfl, rfl, rfl⟩

/-- Claim C4: for every S3 bucket row whose getBucketLocation dependency produced no
result, getS3BucketEventNotificationConfigurations and getBucketLifecycle each
return value null and error null without attempting their own provider fetch; being
deterministic in the provider and hydrate data, re-invocation can only repeat the
same null result. -/
theorem C4_dependency_not_satisfied (p : S3Provider) (item : S3Bucket) :
    getS3BucketEventNotificationConfigurations p
        { item := item, getBucketLocationResult := none } =
      { result := .ret none none, fetchAttempted := false } ∧
    getBucketLifecycle p { item := item, getBucketLocationResult := none } =
      { result := .ret none none, fetchAttempted := false } :=
  ⟨rfl, rfl⟩

/-- Claim C5, counterexample: getBucketPublicAccessBlock on a
NoSuchPublicAccessBlockConfiguration error does not return a null value - it returns
the non-null defaultAccessBlock (all four flags false) with no error, refuting the
claim that every transient-absence conversion yields a null value. -/
theorem C5_counterexample :
    getBucketPublicAccessBlock s3Demo
        { item := { name := "bkt" }
          getBucketLocationResult := some { locationConstraint := some "us-east-1" } } =
      { result := .ret (some defaultAccessBlock) none, fetchAttempted := true } ∧
    (GoRet.ret (some defaultAccessBlock) none : GoRet PublicAccessBlockConfiguration) ≠
      .ret none none :=
  ⟨rfl, by decide⟩

/-- Claim C5, amended: fetch errors classified transient-absent are converted to a
success, with a null value for getAwsIamUserLoginProfile on NoSuchEntity,
getBucketEncryption on ServerSideEncryptionConfigurationNotFoundError and
getObjectLockConfiguration on ObjectLockConfigurationNotFoundError; but
getBucketPublicAccessBlock on NoSuchPublicAccessBlockConfiguration returns the
non-null default configuration with all four flags false, no error. -/
theorem C5_transient_absence (ip : IamProvider) (p : S3Provider) (user : IamUser)
    (h : S3HydrateData) (region : String) (e1 e2 e3 e4 : AwsErr)
    (hisvc : ip.iamService = .ok ())
    (hlp : ip.getLoginProfile user.userName = .error e1)
    (he1 : e1.code = "NoSuchEntity")
    (hloc : h.getBucketLocationResult = some { locationConstraint := some region })
    (hsvc : p.s3Service region = .ok ())
    (henc : p.getBucketEncryptionCall h.item.name = .error e2)
    (he2 : e2.code = "ServerSideEncryptionConfigurationNotFoundError")
    (holc : p.getObjectLockConfigurationCall h.item.name = .error e3)
    (he3 : e3.code = "ObjectLockConfigurationNotFoundError")
    (hpab : p.getPublicAccessBlock h.item.name = .error e4)
    (he4 : e4.code = "NoSuchPublicAccessBlockConfiguration") :
    getAwsIamUserLoginProfile ip user = .ret none none ∧
    (getBucketEncryption p h).result = .ret none none ∧
    (getObjectLockConfiguration p h).result = .ret none none ∧
    (getBucketPublicAccessBlock p h).result = .ret (some defaultAccessBlock) none := by
  refine ⟨?_, ?_, ?_, ?_⟩
  · simp [getAwsIamUserLoginProfile, hisvc, hlp, he1]
  · simp [getBucketEncryption, hloc, hsvc, henc, he2]
  · simp [getObjectLockConfiguration, hloc, hsvc, holc, he3]
  · simp [getBucketPublicAccessBlock, hloc, hsvc, hpab, he4]

/-- Witness for C5_transient_absence at the concrete providers iamFailingDemo and
s3Demo. -/
theorem C5_transient_absence_witness :
    getAwsIamUserLoginProfile iamFailingDemo { userName := "alice" } = .ret none none ∧
    (getBucketEncryption s3Demo
        { item := { name := "bkt" }
          getBucketLocationResult := some { locationConstraint := some "us-east-1" } }).result =
      .ret none none ∧
    (getObjectLockConfiguration s3Demo
        { item := { name := "bkt" }
          getBucketLocationResult := some { locationConstraint := some "us-east-1" } }).result =
      .ret none none ∧
    (getBucketPublicAccessBlock s3Demo
        { item := { name := "bkt" }
          getBucketLocationResult := some { locationConstraint := some "us-east-1" } }).result =
      .ret (some defaultAccessBlock) none :=
  C5_transient_absence iamFailingDemo s3Demo { userName := "alice" }
    { item := { name := "bkt" }
      getBucketLocationResult := some { locationConstraint := some "us-east-1" } }
    "us-east-1"
    { code := "NoSuchEntity", message := "absent" }
    { code := "ServerSideEncryptionConfigurationNotFoundError", message := "absent" }
    { code := "ObjectLockConfigurationNotFoundError", message := "absent" }
    { code := "NoSuchPublicAccessBlockConfiguration", message := "absent" }
    rfl rfl rfl rfl rfl rfl rfl rfl rfl rfl rfl

/-- Claim C8, counterexample: userMfaStatus applied to a null MFA-device hydrate
value does not return a value - the type assertion on the nil hydrate item panics,
refuting the claim that column extraction never fails on a missing source. -/
theorem C8_counterexample :
    userMfaStatus none = .crash "interface conversion on nil HydrateItem" ∧
    (userMfaStatus none).isCrash = true :=
  ⟨rfl, rfl⟩

/-- Claim C8, amended: s3TagsToTurbotTags applied to a null tag list returns a null
map with no error, and userMfaStatus applied to a non-null output whose MFADevices
list is null returns false with no error; but userMfaStatus applied to a null
hydrate value panics on its type assertion instead of yielding a default. -/
theorem C8_null_source_tolerance :
    s3TagsToTurbotTags none = .ret none none ∧
    userMfaStatus (some { mfaDevices := none }) = .ret (some false) none ∧
    userMfaStatus (some { mfaDevices := some [] }) = .ret (some false) none ∧
    (userMfaStatus none).isCrash = true :=
  ⟨rfl, rfl, rfl, rfl⟩

/-- Claim C9: the column transforms are deterministic, side-effect-free functions of
their input alone - with the TransformData threaded explicitly, applying
userMfaStatus or s3TagsToTurbotTags twice yields identical values and leaves the
input state exactly as it was. -/
theorem C9_transform_idempotent (d : MfaTransformData) (d2 : TagsTransformData) :
    (userMfaStatusSt ((userMfaStatusSt d).snd)).fst = (userMfaStatusSt d).fst ∧
    (userMfaStatusSt d).snd = d ∧
    (s3TagsToTurbotTagsSt ((s3TagsToTurbotTagsSt d2).snd)).fst = (s3TagsToTurbotTagsSt d2).fst ∧
    (s3TagsToTurbotTagsSt d2).snd = d2 :=
  ⟨rfl, rfl, rfl, rfl⟩

/-- getBucketIsPublic cannot panic when its getBucketLocation input carries a
present LocationConstraint. -/
theorem getBucketIsPublic_no_crash (p : S3Provider) (item : S3Bucket)
    (out : GetBucketLocationOutput) (region : String)
    (hout : out.locationConstraint = some region) :
    ((getBucketIsPublic p { item := item, getBucketLocationResult := some out }).result).isCrash =
      false := by
  simp only [getBucketIsPublic, hout]
  cases p.s3Service region with
  | error e => simp [GoRet.isCrash]
  | ok u =>
    cases p.getBucketPolicyStatus item.name with
    | error e =>
      by_cases hc : e.code = "NoSuchBucketPolicy" <;> simp [hc, GoRet.isCrash]
    | ok ps => simp [GoRet.isCrash]

/-- On a no-error return, getBucketLocation always carries a non-null output with a
non-null LocationConstraint. -/
theorem getBucketLocation_success_shape (p : S3Provider) (h : S3HydrateData)
    (v : Option GetBucketLocationOutput)
    (hret : getBucketLocation p h = .ret v none) :
    ∃ out region, v = some out ∧ out.locationConstraint = some region := by
  unfold getBucketLocation at hret
  repeat' split at hret
  all_goals simp_all
  all_goals subst hret
  all_goals exact ⟨_, rfl, _, by first | rfl | assumption⟩

/-- Claim C10: on success getBucketLocation always returns an output with a non-null
LocationConstraint - a provider-reported location of "EU" is normalized to
"eu-west-1" and a null location (nil output or nil constraint) to "us-east-1" - so a
dependent hydrate function such as getBucketIsPublic that dereferences
LocationConstraint after a successful getBucketLocation can never panic on it. -/
theorem C10_location_always_resolvable (p : S3Provider) (h : S3HydrateData)
    (v : Option GetBucketLocationOutput)
    (hret : getBucketLocation p h = .ret v none) :
    (∃ out region, v = some out ∧ out.locationConstraint = some region) ∧
    (∀ out, v = some out → ∀ p2 item,
      ((getBucketIsPublic p2
          { item := item, getBucketLocationResult := some out }).result).isCrash = false) ∧
    (p.s3Service p.defaultRegion = .ok () →
      ((p.getBucketLocationCall h.item.name = .ok (some { locationConstraint := some "EU" }) →
          v = some { locationConstraint := some "eu-west-1" }) ∧
       (p.getBucketLocationCall h.item.name = .ok none →
          v = some { locationConstraint := some "us-east-1" }) ∧
       (p.getBucketLocationCall h.item.name = .ok (some { locationConstraint := none }) →
          v = some { locationConstraint := some "us-east-1" }))) := by
  obtain ⟨out, region, hv, hreg⟩ := getBucketLocation_success_shape p h v hret
  refine ⟨⟨out, region, hv, hreg⟩, ?_, ?_⟩
  · intro out2 hv2 p2 item
    rw [hv] at hv2
    cases hv2
    exact getBucketIsPublic_no_crash p2 item out region hreg
  · intro hsvc
    refine ⟨?_, ?_, ?_⟩ <;> intro hcall
    · have heval : getBucketLocation p h = .ret (some { locationConstraint := some "eu-west-1" }) none := by
        simp [getBucketLocation, hsvc, hcall]
      have := hret.symm.trans heval
      injection this
    · have heval : getBucketLocation p h = .ret (some { locationConstraint := some "us-east-1" }) none := by
        simp [getBucketLocation, hsvc, hcall]
      have := hret.symm.trans heval
      injection this
    · have heval : getBucketLocation p h = .ret (some { locationConstraint := some "us-east-1" }) none := by
        simp [getBucketLocation, hsvc, hcall]
      have := hret.symm.trans heval
      injection this

/-- Witness for C10_location_always_resolvable at the concrete provider s3Demo,
whose bucket location call reports "EU": the success value is the normalized
"eu-west-1" output. -/
theorem C10_witness :
    (∃ out region,
      (some { locationConstraint := some "eu-west-1" } : Option GetBucketLocationOutput) =
        some out ∧ out.locationConstraint = some region) ∧
    (∀ out,
      (some { locationConstraint := some "eu-west-1" } : Option GetBucketLocationOutput) =
        some out → ∀ p2 item,
      ((getBucketIsPublic p2
          { item := item, getBucketLocationResult := some out }).result).isCrash = false) ∧
    (s3Demo.s3Service s3Demo.defaultRegion = .ok () →
      ((s3Demo.getBucketLocationCall "bkt" = .ok (some { locationConstraint := some "EU" }) →
          (some { locationConstraint := some "eu-west-1" } : Option GetBucketLocationOutput) =
            some { locationConstraint := some "eu-west-1" }) ∧
       (s3Demo.getBucketLocationCall "bkt" = .ok none →
          (some { locationConstraint := some "eu-west-1" } : Option GetBucketLocationOutput) =
            some { locationConstraint := some "us-east-1" }) ∧
       (s3Demo.getBucketLocationCall "bkt" = .ok (some { locationConstraint := none }) →
          (some { locationConstraint := some "eu-west-1" } : Option GetBucketLocationOutput) =
            some { locationConstraint := some "us-east-1" }))) :=
  C10_location_always_resolvable s3Demo
    { item := { name := "bkt" }, getBucketLocationResult := none }
    (some { locationConstraint := some "eu-west-1" }) rfl

/-- When the fetch result is not a panic, a fan-out goroutine sends exactly errSent
on errorCh and polSent on policyCh. -/
theorem getUserPolicyDataAsync_eq (r : GoRet InlinePolicyEntry) (hcr : r.isCrash = false) :
    getUserPolicyDataAsync r = some (errSent r, polSent r) := by
  cases r with
  | crash m => simp [GoRet.isCrash] at hcr
  | ret v e => cases v <;> cases e <;> rfl

/-- As long as each channel has room for one message per remaining task, the task
run never blocks, and it ends with exactly the errSent messages on errorCh and the
polSent messages on policyCh, appended in completion order. -/
theorem runPolicyTasks_eq (fetch : String → GoRet InlinePolicyEntry) (l : List String) :
    ∀ (ec : Chan AwsErr) (pc : Chan InlinePolicyEntry),
    (∀ x ∈ l, (fetch x).isCrash = false) →
    ec.buf.length + l.length ≤ ec.capty →
    pc.buf.length + l.length ≤ pc.capty →
    runPolicyTasks fetch l ec pc =
      some ({ capty := ec.capty, buf := ec.buf ++ l.filterMap (fun x => errSent (fetch x)) },
            { capty := pc.capty, buf := pc.buf ++ l.filterMap (fun x => polSent (fetch x)) }) := by
  induction l with
  | nil => intro ec pc _ _ _; simp [runPolicyTasks]
  | cons x rest ih =>
    intro ec pc hcr hec hpc
    have hx : (fetch x).isCrash = false := hcr x (by simp)
    have hrest : ∀ y ∈ rest, (fetch y).isCrash = false := fun y hy => hcr y (by simp [hy])
    simp only [List.length_cons] at hec hpc
    rw [runPolicyTasks, getUserPolicyDataAsync_eq (fetch x) hx]
    cases herr : errSent (fetch x) with
    | some e =>
      have hpol : polSent (fetch x) = none := by
        cases hfx : fetch x with
        | crash m => rfl
        | ret v err =>
          rw [hfx] at herr
          cases v <;> cases err <;> simp_all [errSent, polSent]
      have hlt : ec.buf.length < ec.capty := by omega
      simp only [Chan.send, if_pos hlt]
      rw [ih { capty := ec.capty, buf := ec.buf ++ [e] } pc hrest
        (by simp; omega) (by omega)]
      simp [List.filterMap_cons, herr, hpol]
    | none =>
      cases hpolc : polSent (fetch x) with
      | some v =>
        have hlt : pc.buf.length < pc.capty := by omega
        simp only [Chan.send, if_pos hlt]
        rw [ih ec { capty := pc.capty, buf := pc.buf ++ [v] } hrest
          (by omega) (by simp; omega)]
        simp [List.filterMap_cons, herr, hpolc]
      | none =>
        rw [ih ec pc hrest (by omega) (by omega)]
        simp [List.filterMap_cons, herr, hpolc]

/-- Claim C1: under a successful session and policy-name listing, if at least one
per-policy fetch fails then listAwsIamUserInlinePolicies returns a non-nil error -
the error of the first failing fetch in completion order - and a nil aggregate,
never a partial list; and if every fetch succeeds it returns, with no error, one
aggregated entry per fetch that produced a non-nil map (in completion order). -/
theorem C1_first_error_wins (p : IamProvider) (user : IamUser)
    (policyNames completionOrder : List String)
    (hsvc : p.iamService = .ok ())
    (hlist : p.listUserPolicies user.userName = .ok policyNames)
    (hperm : completionOrder.Perm policyNames)
    (hcrash : ∀ x ∈ completionOrder, (getUserInlinePolicy p x user.userName).isCrash = false) :
    ((∃ x ∈ policyNames, ∃ e, getUserInlinePolicy p x user.userName = .ret none (some e)) →
      ∃ e, listAwsIamUserInlinePolicies p user completionOrder = some (.ret none (some e)) ∧
        (completionOrder.filterMap
            (fun x => errSent (getUserInlinePolicy p x user.userName))).head? = some e) ∧
    ((∀ x ∈ policyNames, ∃ v, getUserInlinePolicy p x user.userName = .ret v none) →
      listAwsIamUserInlinePolicies p user completionOrder =
        some (.ret (some (completionOrder.filterMap
          (fun x => polSent (getUserInlinePolicy p x user.userName)))) none)) := by
  have hlen : completionOrder.length = policyNames.length := hperm.length_eq
  have hrun := runPolicyTasks_eq (fun policy => getUserInlinePolicy p policy user.userName)
    completionOrder { capty := policyNames.length, buf := [] }
    { capty := policyNames.length, buf := [] } hcrash (by simp [hlen]) (by simp [hlen])
  constructor
  · rintro ⟨x, hxnames, e, hfx⟩
    have hxord : x ∈ completionOrder := hperm.mem_iff.mpr hxnames
    have hmem : e ∈ completionOrder.filterMap
        (fun x => errSent (getUserInlinePolicy p x user.userName)) :=
      List.mem_filterMap.mpr ⟨x, hxord, by rw [hfx]; rfl⟩
    cases hbuf : completionOrder.filterMap
        (fun x => errSent (getUserInlinePolicy p x user.userName)) with
    | nil => rw [hbuf] at hmem; cases hmem
    | cons e0 tl =>
      refine ⟨e0, ?_, rfl⟩
      simp only [listAwsIamUserInlinePolicies, hsvc, hlist, hrun, hbuf, List.nil_append]
  · intro hall
    have hnone : ∀ x ∈ completionOrder,
        errSent (getUserInlinePolicy p x user.userName) = none := by
      intro x hx
      obtain ⟨v, hv⟩ := hall x (hperm.mem_iff.mp hx)
      rw [hv]
      cases v <;> rfl
    have hbuf : completionOrder.filterMap
        (fun x => errSent (getUserInlinePolicy p x user.userName)) = [] :=
      List.filterMap_eq_nil_iff.mpr hnone
    simp only [listAwsIamUserInlinePolicies, hsvc, hlist, hrun, hbuf, List.nil_append]

/-- Witness for C1_first_error_wins: with two inline policies of which "p1" fails
(iamInlineDemo) the aggregate is discarded and the first error in completion order
is returned; with every fetch succeeding (iamInlineOkDemo) the entries are
aggregated in completion order with no error. -/
theorem C1_witness :
    (∃ e, listAwsIamUserInlinePolicies iamInlineDemo { userName := "alice" } ["p2", "p1"] =
        some (.ret none (some e)) ∧
      (["p2", "p1"].filterMap
          (fun x => errSent (getUserInlinePolicy iamInlineDemo x "alice"))).head? = some e) ∧
    listAwsIamUserInlinePolicies iamInlineOkDemo { userName := "alice" } ["p2", "p1"] =
      some (.ret (some (["p2", "p1"].filterMap
        (fun x => polSent (getUserInlinePolicy iamInlineOkDemo x "alice")))) none) := by
  constructor
  · exact (C1_first_error_wins iamInlineDemo { userName := "alice" } ["p1", "p2"] ["p2", "p1"]
      rfl rfl (by decide) (by decide)).1
      ⟨"p1", by decide, { code := "AccessDenied", message := "denied" }, by decide⟩
  · refine (C1_first_error_wins iamInlineOkDemo { userName := "alice" } ["p1", "p2"] ["p2", "p1"]
      rfl rfl (by decide) (by decide)).2 ?_
    intro x hx
    simp only [List.mem_cons, List.not_mem_nil, or_false] at hx
    rcases hx with rfl | rfl
    · exact ⟨some (.entry { json := "doc" } "p1"), by decide⟩
    · exact ⟨some (.entry { json := "doc" } "p2"), by decide⟩

/-- Claim C7: in listAwsIamUserInlinePolicies exactly one task is launched per
policy name (the tasks running in completion order are the launched names, with the
same multiplicities), every launched task completes its buffered-channel send
without blocking (the channels are buffered with capacity equal to the number of
policy names, so the run reaches wg.Wait), and in the event order the wg.Wait
barrier and the channel closes come after all task completions and before either
channel is read. -/
theorem C7_no_task_leak (p : IamProvider) (user : IamUser)
    (policyNames completionOrder : List String)
    (hperm : completionOrder.Perm policyNames)
    (hcrash : ∀ x ∈ completionOrder, (getUserInlinePolicy p x user.userName).isCrash = false) :
    (∀ s, completionOrder.count s = policyNames.count s) ∧
    (runPolicyTasks (fun policy => getUserInlinePolicy p policy user.userName) completionOrder
        { capty := policyNames.length, buf := [] }
        { capty := policyNames.length, buf := [] }).isSome = true ∧
    (fanInTrace completionOrder).take completionOrder.length =
      completionOrder.map FanInEvent.taskComplete ∧
    (fanInTrace completionOrder).drop completionOrder.length =
      [FanInEvent.waitReturns, FanInEvent.closeChannels,
       FanInEvent.readErrorCh, FanInEvent.readPolicyCh] := by
  have hlen : completionOrder.length = policyNames.length := hperm.length_eq
  refine ⟨fun s => hperm.count_eq s, ?_, ?_, ?_⟩
  · rw [runPolicyTasks_eq (fun policy => getUserInlinePolicy p policy user.userName)
      completionOrder _ _ hcrash (by simp [hlen]) (by simp [hlen])]
    rfl
  · exact List.take_left' (by simp)
  · exact List.drop_left' (by simp)

/-- Witness for C7_no_task_leak at iamInlineDemo with policy names ["p1", "p2"] and
completion order ["p2", "p1"]. -/
theorem C7_witness :
    (∀ s, (["p2", "p1"] : List String).count s = (["p1", "p2"] : List String).count s) ∧
    (runPolicyTasks (fun policy => getUserInlinePolicy iamInlineDemo policy "alice")
        ["p2", "p1"]
        { capty := (["p1", "p2"] : List String).length, buf := [] }
        { capty := (["p1", "p2"] : List String).length, buf := [] }).isSome = true ∧
    (fanInTrace ["p2", "p1"]).take (["p2", "p1"] : List String).length =
      (["p2", "p1"] : List String).map FanInEvent.taskComplete ∧
    (fanInTrace ["p2", "p1"]).drop (["p2", "p1"] : List String).length =
      [FanInEvent.waitReturns, FanInEvent.closeChannels,
       FanInEvent.readErrorCh, FanInEvent.readPolicyCh] :=
  C7_no_task_leak iamInlineDemo { userName := "alice" } ["p1", "p2"] ["p2", "p1"]
    (by decide) (by decide)

/-- Appending traces preserves emitsFollowedByPoll (a trace satisfying it cannot
end in an emit). -/
theorem emitsFollowedByPoll_append {ρ : Type} (l s : List (SinkEvent ρ))
    (hl : emitsFollowedByPoll l = true) (hs : emitsFollowedByPoll s = true) :
    emitsFollowedByPoll (l ++ s) = true := by
  induction l with
  | nil => simpa using hs
  | cons hd tl ih =>
    cases hd with
    | pollRowsRemaining r =>
      simp only [emitsFollowedByPoll] at hl
      simp only [List.cons_append, emitsFollowedByPoll]
      exact ih hl
    | emit row =>
      cases tl with
      | nil => simp [emitsFollowedByPoll] at hl
      | cons hd2 tl2 =>
        cases hd2 with
        | emit row2 => simp [emitsFollowedByPoll] at hl
        | pollRowsRemaining r2 =>
          simp only [emitsFollowedByPoll] at hl
          simp only [List.cons_append, emitsFollowedByPoll]
          exact ih hl

/-- Appending traces preserves noEmitAfterZeroPoll when the first trace contains no
zero-capacity poll. -/
theorem noEmitAfterZeroPoll_append {ρ : Type} (l s : List (SinkEvent ρ))
    (hl : ∀ r, SinkEvent.pollRowsRemaining r ∈ l → r ≠ 0)
    (hs : noEmitAfterZeroPoll s = true) :
    noEmitAfterZeroPoll (l ++ s) = true := by
  induction l with
  | nil => simpa using hs
  | cons hd tl ih =>
    have htl : ∀ r, SinkEvent.pollRowsRemaining r ∈ tl → r ≠ 0 :=
      fun r hr => hl r (by simp [hr])
    cases hd with
    | emit row =>
      simp only [List.cons_append, noEmitAfterZeroPoll]
      exact ih htl
    | pollRowsRemaining r =>
      obtain ⟨r2, hr2⟩ := Nat.exists_eq_succ_of_ne_zero (hl r (by simp))
      subst hr2
      simp only [List.cons_append, noEmitAfterZeroPoll]
      exact ih htl

/-- Per-page facts about the ListUsersPages callback of listIamUsers: its trace
polls after every emit, emits nothing after a zero poll, and when the callback asks
to continue the page contained no zero poll. -/
theorem listIamUsersPage_props (remaining : Nat → Nat) (page : List IamUser) :
    ∀ emitted : Nat,
    emitsFollowedByPoll (listIamUsersPage remaining page emitted).fst = true ∧
    noEmitAfterZeroPoll (listIamUsersPage remaining page emitted).fst = true ∧
    ((listIamUsersPage remaining page emitted).snd.snd = true →
      ∀ r, SinkEvent.pollRowsRemaining r ∈ (listIamUsersPage remaining page emitted).fst →
        r ≠ 0) := by
  induction page with
  | nil =>
    intro emitted
    refine ⟨rfl, rfl, fun _ r hr => ?_⟩
    simp [listIamUsersPage] at hr
  | cons user rest ih =>
    intro emitted
    by_cases hr : remaining (emitted + 1) = 0
    · refine ⟨?_, ?_, ?_⟩
      · simp [listIamUsersPage, hr, emitsFollowedByPoll]
      · simp [listIamUsersPage, hr, noEmitAfterZeroPoll, SinkEvent.isEmit]
      · intro hcont
        simp [listIamUsersPage, hr] at hcont
    · obtain ⟨r2, hr2⟩ := Nat.exists_eq_succ_of_ne_zero hr
      obtain ⟨h1, h2, h3⟩ := ih (emitted + 1)
      refine ⟨?_, ?_, ?_⟩
      · simp only [listIamUsersPage, if_neg hr, emitsFollowedByPoll]
        exact h1
      · simp only [listIamUsersPage, if_neg hr, hr2, noEmitAfterZeroPoll]
        exact h2
      · intro hcont r hmem
        simp only [listIamUsersPage, if_neg hr] at hcont hmem
        simp only [List.mem_cons] at hmem
        rcases hmem with h | h | h
        · cases h
        · cases h; omega
        · exact h3 hcont r h

/-- The full listIamUsers trace polls after every emit and emits nothing after a
zero poll. -/
theorem listIamUsersEmits_props (remaining : Nat → Nat) (pages : List (List IamUser)) :
    ∀ emitted : Nat,
    emitsFollowedByPoll (listIamUsersEmits remaining pages emitted) = true ∧
    noEmitAfterZeroPoll (listIamUsersEmits remaining pages emitted) = true := by
  induction pages with
  | nil => exact fun _ => ⟨rfl, rfl⟩
  | cons page rest ih =>
    intro emitted
    obtain ⟨h1, h2, h3⟩ := listIamUsersPage_props remaining page emitted
    by_cases hc : (listIamUsersPage remaining page emitted).snd.snd = true
    · obtain ⟨ih1, ih2⟩ := ih (listIamUsersPage remaining page emitted).snd.fst
      constructor
      · simp only [listIamUsersEmits, hc, if_true]
        exact emitsFollowedByPoll_append _ _ h1 ih1
      · simp only [listIamUsersEmits, hc, if_true]
        exact noEmitAfterZeroPoll_append _ _ (h3 hc) ih2
    · rw [Bool.not_eq_true] at hc
      constructor
      · simp only [listIamUsersEmits, hc, if_false]
        exact h1
      · simp only [listIamUsersEmits, hc, if_false]
        exact h2

/-- The listS3Buckets trace polls after every emit and emits nothing after a zero
poll. -/
theorem listS3BucketsEmits_props (remaining : Nat → Nat) (buckets : List S3Bucket) :
    ∀ emitted : Nat,
    emitsFollowedByPoll (listS3BucketsEmits remaining buckets emitted) = true ∧
    noEmitAfterZeroPoll (listS3BucketsEmits remaining buckets emitted) = true := by
  induction buckets with
  | nil => exact fun _ => ⟨rfl, rfl⟩
  | cons b rest ih =>
    intro emitted
    by_cases hr : remaining (emitted + 1) = 0
    · constructor
      · simp [listS3BucketsEmits, hr, emitsFollowedByPoll]
      · simp [listS3BucketsEmits, hr, noEmitAfterZeroPoll, SinkEvent.isEmit]
    · obtain ⟨r2, hr2⟩ := Nat.exists_eq_succ_of_ne_zero hr
      obtain ⟨ih1, ih2⟩ := ih (emitted + 1)
      constructor
      · simp only [listS3BucketsEmits, if_neg hr, emitsFollowedByPoll]
        exact ih1
      · simp only [listS3BucketsEmits, if_neg hr, hr2, noEmitAfterZeroPoll]
        exact ih2

/-- listCloudtrailEvents streams every event of every page and its trace consists of
emits only. -/
theorem listCloudtrailEventsEmits_eq (pages : List (List CloudtrailEvent)) :
    listCloudtrailEventsEmits pages = pages.flatten.map SinkEvent.emit := by
  induction pages with
  | nil => rfl
  | cons page rest ih => simp [listCloudtrailEventsEmits, ih]

/-- Claim C6, counterexample: with one page of two events, listCloudtrailEvents
emits both rows consecutively and its trace contains no RowsRemaining poll at all -
refuting the claim that every list operation polls the remaining capacity between
any two consecutively emitted rows. -/
theorem C6_counterexample :
    listCloudtrailEventsEmits [[{ eventId := "e1" }, { eventId := "e2" }]] =
      [.emit { eventId := "e1" }, .emit { eventId := "e2" }] ∧
    (listCloudtrailEventsEmits [[{ eventId := "e1" }, { eventId := "e2" }]]).all
      (fun ev => ev.isEmit) = true :=
  ⟨rfl, rfl⟩

/-- Claim C6, amended: listIamUsers and listS3Buckets poll the remaining row
capacity between any two consecutively emitted rows (every emit is immediately
followed by a poll) and emit no further row once remaining capacity reaches zero;
listCloudtrailEvents, however, streams every event of every page and never polls
remaining capacity. -/
theorem C6_capacity_polling (remaining : Nat → Nat) (userPages : List (List IamUser))
    (buckets : List S3Bucket) (eventPages : List (List CloudtrailEvent)) :
    (emitsFollowedByPoll (listIamUsersEmits remaining userPages 0) = true ∧
     noEmitAfterZeroPoll (listIamUsersEmits remaining userPages 0) = true) ∧
    (emitsFollowedByPoll (listS3BucketsEmits remaining buckets 0) = true ∧
     noEmitAfterZeroPoll (listS3BucketsEmits remaining buckets 0) = true) ∧
    listCloudtrailEventsEmits eventPages = eventPages.flatten.map SinkEvent.emit :=
  ⟨listIamUsersEmits_props remaining userPages 0,
   listS3BucketsEmits_props remaining buckets 0,
   listCloudtrailEventsEmits_eq eventPages⟩

end SteampipeAws
